import Mathlib

/-!
Verification of the LangchainBot RAG backend against its specification.

The development gives a shallow embedding, in Lean, of the core Python
functions of the repository:

* `backend/app/utils/chunker.py`   — `TextChunker.chunk_text`
* `backend/app/core/vectorstore.py` — `VectorStore.search`,
  `VectorStore.delete_document`
* `backend/app/core/rag_pipeline.py` — `RAGPipeline.rag_query`
* `backend/app/core/config.py`      — the relevant `Settings` defaults

Python strings are embedded as `List Char` (or `String`), Python `float`
scores as `ℚ`, and Python slice / `str.rfind` semantics (including
negative indices) are modelled explicitly.  The unbounded `while` loop of
`chunk_text` is embedded with an explicit fuel parameter: `none` means the
loop has not finished within the given fuel.
-/

/-- Python `str.strip()` considers these six characters whitespace. -/
def pyWs (c : Char) : Bool :=
  c = ' ' || c = '\t' || c = '\n' || c = '\r' || c = '\x0b' || c = '\x0c'

/-- Python `str.strip()`: drop leading and trailing whitespace. -/
def pyStrip (l : List Char) : List Char :=
  ((l.dropWhile pyWs).reverse.dropWhile pyWs).reverse

/-- Adjust a Python slice index to an absolute position in `[0, len]`:
negative indices count from the end and are clamped below at 0,
non-negative ones are clamped above at `len`. -/
def pyAdj (len : Nat) (i : Int) : Nat :=
  if i < 0 then ((len : Int) + i).toNat else min i.toNat len

/-- Python slice `t[s:e]` with full negative-index semantics. -/
def pySlice (t : List Char) (s e : Int) : List Char :=
  (t.take (pyAdj t.length e)).drop (pyAdj t.length s)

/-- Does `sub` occur in `t` starting at absolute position `i`? -/
def matchesAt (t sub : List Char) (i : Nat) : Bool :=
  decide ((t.drop i).take sub.length = sub)

/-- Python `t.rfind(sub, s, e)`: the largest `i` with `adj s ≤ i`,
`i + |sub| ≤ adj e` and `sub` occurring at `i`; `none` when there is no
occurrence (the Python function returns `-1` there). -/
def pyRfind (t sub : List Char) (s e : Int) : Option Nat :=
  let lo := pyAdj t.length s
  let hi := pyAdj t.length e
  if lo + sub.length ≤ hi then
    (List.range' lo (hi - sub.length + 1 - lo)).reverse.find? (matchesAt t sub)
  else none

/-- The boundary markers of `chunk_text`, in the preference order of the
code. -/
def boundaryMarkers : List (List Char) :=
  [['.', ' '], ['.', '\n'], ['!', ' '], ['!', '\n'],
   ['?', ' '], ['?', '\n'], ['\n', '\n']]

/-- A chunker configuration (`TextChunker.__init__`): the chunk size and
overlap; the constructor rejects `chunk_overlap >= chunk_size`. -/
structure ChunkerCfg where
  chunk_size : Nat
  chunk_overlap : Nat

/-- The candidate end position of the chunk starting at `s`:
`s + chunk_size`, moved back to just after the last boundary marker in the
window when the candidate end lies strictly before the end of the text
(the `for break_char in [...]` loop, first marker with a hit wins). -/
def computeEnd (t : List Char) (cfg : ChunkerCfg) (s : Int) : Int :=
  let e : Int := s + cfg.chunk_size
  if e < (t.length : Int) then
    match boundaryMarkers.findSome?
        (fun bc => (pyRfind t bc s e).map (fun i => ((i + bc.length : Nat) : Int))) with
    | some e2 => e2
    | none => e
  else e

/-- The `while start < text_length` loop of `chunk_text`, with fuel.
`none` means the loop did not finish within `fuel` iterations. -/
def chunkLoop (t : List Char) (cfg : ChunkerCfg) :
    Nat → Int → List (List Char) → Option (List (List Char))
  | 0, _, _ => none
  | fuel + 1, s, acc =>
    if s < (t.length : Int) then
      let e := computeEnd t cfg s
      let c := pyStrip (pySlice t s e)
      let acc2 := if c.isEmpty then acc else acc ++ [c]
      let s2 : Int := e - cfg.chunk_overlap
      if (t.length : Int) ≤ s2 then some acc2
      else chunkLoop t cfg fuel s2 acc2
    else some acc

/-- The function `TextChunker.chunk_text`, fuelled.  The guard mirrors
`if not text or not text.strip(): return []`. -/
def chunk_text (cfg : ChunkerCfg) (t : List Char) (fuel : Nat) :
    Option (List (List Char)) :=
  if (pyStrip t).isEmpty then some [] else chunkLoop t cfg fuel 0 []

/-- The C1 failing configuration: `chunk_size=5, chunk_overlap=3`. -/
def cfgC1 : ChunkerCfg := ⟨5, 3⟩

/-- The C1 failing input text. -/
def textC1 : List Char := "ab. cdefgh".toList

/-- The C2 failing configuration: `chunk_size=10, chunk_overlap=4`. -/
def cfgC2 : ChunkerCfg := ⟨10, 4⟩

/-- The C2 failing input text: `"a. xy"` followed by fifteen `'b'`s. -/
def textC2 : List Char := "a. xybbbbbbbbbbbbbbb".toList

/-- The C3 configuration from the spec scenario: `maxLen=100, overlap=20`. -/
def cfgC3 : ChunkerCfg := ⟨100, 20⟩

/-- The default `Settings.RAG_TOP_K` (config.py). -/
def RAG_TOP_K : Nat := 4

/-- The default `Settings.RAG_MIN_SCORE` (config.py); `0.2` as a rational. -/
def RAG_MIN_SCORE : ℚ := 1/5

/-- A point as returned by the Qdrant backend for a query: its id, its
payload (an association list of string fields; the key `"text"` carries
the chunk text) and its similarity score (a Python float, embedded as
`ℚ`). -/
structure QdrantPoint where
  id : String
  payload : List (String × String)
  score : ℚ

/-- A formatted search result (one of the output dicts of
`VectorStore.search`). -/
structure SearchResult where
  text : String
  metadata : List (String × String)
  id : String
  score : ℚ
deriving DecidableEq

/-- Formatting of one backend point into a result dict:
`payload.get("text", "")`, the payload minus the `"text"` key, the point
id and the score. -/
def formatPoint (p : QdrantPoint) : SearchResult :=
  { text := (p.payload.lookup "text").getD ""
    metadata := p.payload.filter (fun kv => !(kv.1 == "text"))
    id := p.id
    score := p.score }

/-- The method `VectorStore.search`, abstracted over the backend call
(`client.query_points`, which receives the effective limit and threshold
and returns scored points).  `top_k = 0` and `min_score = 0` model the
falsy Python arguments, replaced by the settings defaults via
`top_k = top_k or settings.RAG_TOP_K` and
`min_score = min_score or settings.RAG_MIN_SCORE`; the client-side
re-filter keeps only scores `≥` the effective threshold. -/
def search (backend : Nat → ℚ → List QdrantPoint) (top_k : Nat)
    (min_score : ℚ) : List SearchResult :=
  let k := if top_k = 0 then RAG_TOP_K else top_k
  let m := if min_score = 0 then RAG_MIN_SCORE else min_score
  ((backend k m).filter (fun p => m ≤ p.score)).map formatPoint

/-- Modelled from the spec: the query contract of the Qdrant backend
(spec §6: "queries accept a vector, a result limit, a score threshold …
and return points with a similarity score").  `index` is the candidate
list of the backend for the query, ranked best-first; the backend honours
the threshold inclusively and returns at most `limit` points. -/
def qdrantBackend (index : List QdrantPoint) : Nat → ℚ → List QdrantPoint :=
  fun limit threshold => (index.filter (fun p => threshold ≤ p.score)).take limit

/-- The C4 counterexample point: a backend candidate scored `0.15`. -/
def ptC4 : QdrantPoint := ⟨"p1", [("text", "hello"), ("doc_id", "d1")], 3/20⟩

/-- The C4/C8/C10 witness point (score `0.5`). -/
def ptW : QdrantPoint := ⟨"w1", [("text", "t"), ("doc_id", "dw")], 1/2⟩

/-- A backend that returns `ptW` regardless of limit and threshold. -/
def backendW : Nat → ℚ → List QdrantPoint := fun _ _ => [ptW]

/-- An indexed entry as relevant to `delete_document`: its point id and
the `doc_id` field of its payload (absent for entries indexed without
one). -/
structure IndexEntry where
  id : Nat
  doc_id : Option String
deriving DecidableEq

/-- The single `client.scroll` call of `delete_document`: the entries
whose payload `doc_id` equals the argument, one page of at most `limit`
points (the code passes `limit=10000`). -/
def scrollPage (idx : List IndexEntry) (d : String) (limit : Nat) :
    List IndexEntry :=
  (idx.filter (fun e => e.doc_id == some d)).take limit

/-- The method `VectorStore.delete_document`: scroll ONE page of up to 10000 matching
points; if any were found, delete the points with those ids, else do
nothing.  The collection is the list of entries; `client.delete` removes
every entry whose id is in the selector. -/
def delete_document (idx : List IndexEntry) (d : String) : List IndexEntry :=
  let page := scrollPage idx d 10000
  if page.isEmpty then idx
  else idx.filter (fun e => !((page.map (fun p => p.id)).contains e.id))

/-- Entry `i` of the C5 counterexample index: id `i`, doc_id `"d"`. -/
def entC5 (i : Nat) : IndexEntry := ⟨i, some "d"⟩

/-- The C5 counterexample index: 10001 entries, all for doc_id `"d"`. -/
def idxC5 : List IndexEntry := (List.range 10001).map entC5

/-- The C5 witness index: three entries over two documents and one
doc_id-less entry. -/
def idxW : List IndexEntry := [⟨1, some "d"⟩, ⟨2, some "x"⟩, ⟨3, none⟩]

/-- Python `str.strip()` on a `String` (used on the generated answer). -/
def pyStripStr (s : String) : String := String.mk (pyStrip s.data)

/-- The fixed `NoResults` answer of `rag_query`. -/
def notFoundAnswer : String :=
  "I couldn\x27t find relevant information in the uploaded documents to answer your question. Please try rephrasing your question or ensure the relevant documents have been uploaded."

/-- The fixed answer returned when the generation provider raises a
configuration/authentication failure (`ValueError`). -/
def configIssueAnswer : String :=
  "I\x27m unable to process your query due to a configuration issue. Please check the API settings."

/-- The fixed answer returned when the generation provider raises a
transient API failure (`RuntimeError`). -/
def serviceIssueAnswer : String :=
  "I\x27m experiencing issues connecting to the language model service. Please try again later."

/-- The fixed system instruction of `RAGPipeline.__init__`. -/
def systemPrompt : String :=
  "You are a helpful AI assistant that answers questions based on the provided context from uploaded documents.\n\nYour task is to:\n1. Answer questions accurately using ONLY the information from the provided context\n2. If the context doesn\x27t contain enough information to answer the question, clearly state that the information is not available in the documents\n3. Provide clear, concise, and well-structured answers\n4. When possible, cite specific details from the context to support your answer\n5. If asked about something not in the context, politely explain that you can only answer based on the uploaded documents\n\nImportant guidelines:\n- Base your answer strictly on the context provided\n- Do not use external knowledge beyond what\x27s in the context\n- If the question is unclear or ambiguous, ask for clarification or provide the most relevant answer based on the context\n- Structure your answer logically and make it easy to understand\n- Be honest when information is not available in the context\n\nBe helpful, accurate, and honest. If you don\x27t know something based on the context, admit it clearly."

/-- Python `str.join`, as used in `"\n\n".join(...)`. -/
def joinSep (sep : String) : List String → String
  | [] => ""
  | [x] => x
  | x :: xs => x ++ sep ++ joinSep sep xs

/-- The prompt assembled by `rag_query` (its f-string, with the context
block and the literal query spliced in). -/
def promptTemplate (context query : String) : String :=
  "Based on the following context from uploaded documents, please answer the question.\n\nContext from documents:\n" ++ context ++ "\n\nQuestion: " ++ query ++ "\n\nInstructions:\n- Answer the question using ONLY the information from the context above\n- If the context contains relevant information, provide a clear and detailed answer\n- If the context doesn\x27t contain enough information to answer the question, clearly state: \"I couldn\x27t find enough information in the uploaded documents to answer this question.\"\n- Be specific and cite relevant details from the context when possible\n- Structure your answer in a clear and easy-to-understand format"

/-- The outcome of one `chat_completion_async` call, as seen by
`rag_query`: a generated answer, a `ValueError`
(authentication/configuration failure), a `RuntimeError` (API failure),
or any other exception (which `rag_query` re-raises). -/
inductive GenResult where
  | ok (answer : String)
  | valueError
  | runtimeError
  | otherError
deriving DecidableEq

/-- The dictionary returned by `rag_query`. -/
structure QueryOutcome where
  answer : String
  sources : List String
  confidence : ℚ
deriving DecidableEq

/-- The expression `result["metadata"].get("doc_id", result["id"])`. -/
def sourceKey (r : SearchResult) : String :=
  (r.metadata.lookup "doc_id").getD r.id

/-- The source-collection loop of `rag_query`:
`if doc_id not in sources: sources.append(doc_id)` over the ranked
results. -/
def collectSources : List SearchResult → List String → List String
  | [], acc => acc
  | r :: rs, acc =>
    if sourceKey r ∈ acc then collectSources rs acc
    else collectSources rs (acc ++ [sourceKey r])

/-- Round half to even on an exact rational, matching Python `round` on
the embedded score values. -/
def rhe (q : ℚ) : ℤ :=
  if q - ⌊q⌋ = 1/2 then (if ⌊q⌋ % 2 = 0 then ⌊q⌋ else ⌊q⌋ + 1) else round q

/-- Python `round(x, 2)` on the embedded values. -/
def round2 (q : ℚ) : ℚ := (rhe (q * 100) : ℚ) / 100

/-- The expression `sum(r["score"] for r in search_results) / len(search_results)`. -/
def avgScore (results : List SearchResult) : ℚ :=
  (results.map (fun r => r.score)).sum / results.length

/-- The method `RAGPipeline.rag_query` after the retrieval call, as a function of the
retrieved results and of the generation provider `gen` (prompt → system
prompt → outcome).  `Except.error ()` models an exception propagating to
the caller (the re-raised unrecognised generation failure). -/
def rag_query (query : String) (results : List SearchResult)
    (gen : String → String → GenResult) : Except Unit QueryOutcome :=
  if results.isEmpty then
    .ok ⟨notFoundAnswer, [], 0⟩
  else
    let sources := collectSources results []
    let context := joinSep "\n\n" (results.map (fun r => r.text))
    let prompt := promptTemplate context query
    match gen prompt systemPrompt with
    | .ok answer =>
        .ok ⟨pyStripStr answer, sources, round2 (min (avgScore results) (19/20))⟩
    | .valueError => .ok ⟨configIssueAnswer, sources, 0⟩
    | .runtimeError => .ok ⟨serviceIssueAnswer, sources, 0⟩
    | .otherError => .error ()

/-- The full query path: `rag_query` retrieves via `VectorStore.search`
with the configured `RAG_TOP_K` and `RAG_MIN_SCORE` and then proceeds as
`rag_query`. -/
def rag_query_pipeline (backend : Nat → ℚ → List QdrantPoint) (query : String)
    (gen : String → String → GenResult) : Except Unit QueryOutcome :=
  rag_query query (search backend RAG_TOP_K RAG_MIN_SCORE) gen

/-- A generation provider that always succeeds (witness). -/
def genOkW : String → String → GenResult := fun _ _ => .ok "  the answer  "

/-- A generation provider that always raises `ValueError` (witness). -/
def genValW : String → String → GenResult := fun _ _ => .valueError

/-- A generation provider that always raises `RuntimeError` (witness). -/
def genRunW : String → String → GenResult := fun _ _ => .runtimeError

/-- The first C7/C9 witness result. -/
def resW1 : SearchResult := ⟨"text one", [("doc_id", "d1")], "id1", 3/10⟩

/-- The second C7/C9 witness result. -/
def resW2 : SearchResult := ⟨"text two", [("doc_id", "d2")], "id2", 1/4⟩

/-- The C8 witness outcome. -/
def outW8 : QueryOutcome := ⟨"the answer", ["dw"], 1/2⟩

/-- First-seen deduplication: the canonical form of the source-collection
loop (keep the first occurrence of each key, in order). -/
def fsDedup : List String → List String
  | [] => []
  | x :: xs => x :: fsDedup (xs.filter (fun y => !(y == x)))
termination_by l => l.length
decreasing_by
  simp_wf
  exact Nat.lt_succ_of_le (List.length_filter_le _ _)

/-- A third witness result, a second chunk of document `d1`. -/
def resW3 : SearchResult := ⟨"text three", [("doc_id", "d1")], "id3", 1/5⟩

/-- A fourth witness result with no `doc_id` in its metadata: its entry
id is used as the source key. -/
def resW4 : SearchResult := ⟨"text four", [("lang", "en")], "id4", 1/5⟩

/-- The C9 witness results: a duplicated doc_id and a doc_id-less entry. -/
def resultsC9 : List SearchResult := [resW1, resW2, resW3, resW4]

theorem chunkLoop_c1_step (f : Nat) (acc : List (List Char)) :
    chunkLoop textC1 cfgC1 (f + 1) 1 acc =
      chunkLoop textC1 cfgC1 f 1 (acc ++ [['b', '.']]) := rfl

theorem chunkLoop_c1_stuck (f : Nat) :
    ∀ acc, chunkLoop textC1 cfgC1 f 1 acc = none := by
  induction f with
  | zero => intro acc; rfl
  | succ f ih => intro acc; rw [chunkLoop_c1_step]; exact ih _

/-- C1: the claim asserts that for every text and every configuration with
`overlap < maxLen` the chunking loop terminates.  The code does not: on
the 10-character text `"ab. cdefgh"` with `chunk_size=5, chunk_overlap=3`
the loop reaches `start=1`, finds the marker `". "` at index 2, sets
`end=4`, appends the chunk `"b."`, and resets `start = 4 - 3 = 1` — the
same state — so no amount of fuel makes `chunk_text` return. -/
theorem chunk_text_c1_diverges (fuel : Nat) :
    chunk_text cfgC1 textC1 fuel = none := by
  cases fuel with
  | zero => rfl
  | succ f =>
    show chunkLoop textC1 cfgC1 (f + 1) 0 [] = none
    show chunkLoop textC1 cfgC1 f 1 [['a', 'b', '.']] = none
    exact chunkLoop_c1_stuck f _

/-- C2: the claim asserts that the chunks cover the whole input text.  On
`textC2` with `chunk_size=10, chunk_overlap=4` the first chunk ends after
the `". "` marker at `end=3`, so the next start is `3 - 4 = -1`; the
negative Python slice `text[-1:9]` is empty, the empty chunk is dropped,
and the following start jumps to `9 - 4 = 5`: the characters `'x','y'` at
positions 3 and 4 appear in no chunk at all (and they are not whitespace,
so trimming does not excuse them). -/
theorem chunk_text_c2_skips_text :
    chunk_text cfgC2 textC2 30 =
      some [['a', '.'], List.replicate 10 'b', List.replicate 9 'b',
            List.replicate 3 'b'] ∧
    'x' ∈ textC2 ∧ 'y' ∈ textC2 ∧ pyWs 'x' = false ∧ pyWs 'y' = false ∧
    ([['a', '.'], List.replicate 10 'b', List.replicate 9 'b',
      List.replicate 3 'b'].filter (fun c => c.contains 'x' || c.contains 'y')).isEmpty = true := by
  decide

lemma pyRfind_eq_none (t sub : List Char) (s e : Int)
    (h : ∀ i, matchesAt t sub i = false) : pyRfind t sub s e = none := by
  simp only [pyRfind]
  split
  · exact List.find?_eq_none.mpr (fun x _ => by simp [h x])
  · rfl

lemma computeEnd_no_marker (t : List Char) (cfg : ChunkerCfg) (s : Int)
    (h : ∀ bc ∈ boundaryMarkers, ∀ i, matchesAt t bc i = false) :
    computeEnd t cfg s = s + cfg.chunk_size := by
  simp only [computeEnd]
  have hfs : boundaryMarkers.findSome?
      (fun bc => (pyRfind t bc s (s + cfg.chunk_size)).map
        (fun i => ((i + bc.length : Nat) : Int))) = none :=
    List.findSome?_eq_none_iff.mpr
      (fun bc hbc => by rw [pyRfind_eq_none t bc _ _ (h bc hbc)]; rfl)
  split
  · rw [hfs]
  · rfl

lemma dropWhile_eq_self_of {p : Char → Bool} {l : List Char}
    (h : ∀ c ∈ l, p c = false) : l.dropWhile p = l := by
  cases l with
  | nil => rfl
  | cons a l => rw [List.dropWhile_cons, h a (List.mem_cons_self a l)]; simp

lemma pyStrip_eq_self {l : List Char} (h : ∀ c ∈ l, pyWs c = false) :
    pyStrip l = l := by
  unfold pyStrip
  rw [dropWhile_eq_self_of h,
      dropWhile_eq_self_of (fun c hc => h c (List.mem_reverse.mp hc)),
      List.reverse_reverse]

lemma mem_pySlice {t : List Char} {s e : Int} {c : Char}
    (hc : c ∈ pySlice t s e) : c ∈ t :=
  List.mem_of_mem_take (List.mem_of_mem_drop hc)

lemma isEmpty_false_of_length_pos {α : Type} {l : List α} (h : 0 < l.length) :
    l.isEmpty = false := by
  cases l with
  | nil => simp at h
  | cons a l => rfl

lemma chunkLoop_step_nm (t : List Char) (cfg : ChunkerCfg) (f : Nat) (s : Int)
    (acc : List (List Char)) (e2 s2 : Int)
    (hm : ∀ bc ∈ boundaryMarkers, ∀ i, matchesAt t bc i = false)
    (hw : ∀ c ∈ t, pyWs c = false)
    (hs : s < (t.length : Int))
    (he : s + cfg.chunk_size = e2)
    (hs2 : e2 - cfg.chunk_overlap = s2)
    (hne : (pySlice t s e2).isEmpty = false)
    (hcont : s2 < (t.length : Int)) :
    chunkLoop t cfg (f + 1) s acc =
      chunkLoop t cfg f s2 (acc ++ [pySlice t s e2]) := by
  have hce : computeEnd t cfg s = e2 := by
    rw [computeEnd_no_marker t cfg s hm, he]
  have hstrip : pyStrip (pySlice t s e2) = pySlice t s e2 :=
    pyStrip_eq_self (fun c hc => hw c (mem_pySlice hc))
  simp only [chunkLoop, if_pos hs, hce, hstrip, hne, hs2]
  rw [if_neg (not_le.mpr hcont)]
  simp

lemma chunkLoop_last_nm (t : List Char) (cfg : ChunkerCfg) (f : Nat) (s : Int)
    (acc : List (List Char)) (e2 s2 : Int)
    (hm : ∀ bc ∈ boundaryMarkers, ∀ i, matchesAt t bc i = false)
    (hw : ∀ c ∈ t, pyWs c = false)
    (hs : s < (t.length : Int))
    (he : s + cfg.chunk_size = e2)
    (hs2 : e2 - cfg.chunk_overlap = s2)
    (hne : (pySlice t s e2).isEmpty = false)
    (hstop : (t.length : Int) ≤ s2) :
    chunkLoop t cfg (f + 1) s acc = some (acc ++ [pySlice t s e2]) := by
  have hce : computeEnd t cfg s = e2 := by
    rw [computeEnd_no_marker t cfg s hm, he]
  have hstrip : pyStrip (pySlice t s e2) = pySlice t s e2 :=
    pyStrip_eq_self (fun c hc => hw c (mem_pySlice hc))
  simp only [chunkLoop, if_pos hs, hce, hstrip, hne, hs2]
  rw [if_pos hstop]
  simp

lemma chunk250_slices (t : List Char) (hlen : t.length = 250) :
    pySlice t 0 100 = t.take 100 ∧
    pySlice t 80 180 = (t.take 180).drop 80 ∧
    pySlice t 160 260 = (t.take 250).drop 160 ∧
    pySlice t 240 340 = (t.take 250).drop 240 := by
  refine ⟨?_, ?_, ?_, ?_⟩ <;>
    · simp only [pySlice, pyAdj, hlen]
      norm_num
      simp

lemma chunk250_general (t : List Char) (hlen : t.length = 250)
    (hm : ∀ bc ∈ boundaryMarkers, ∀ i, matchesAt t bc i = false)
    (hw : ∀ c ∈ t, pyWs c = false) :
    chunk_text cfgC3 t 10 =
      some [t.take 100, (t.take 180).drop 80,
            (t.take 250).drop 160, (t.take 250).drop 240] := by
  obtain ⟨hsl1, hsl2, hsl3, hsl4⟩ := chunk250_slices t hlen
  have hguard : (pyStrip t).isEmpty = false := by
    rw [pyStrip_eq_self hw]
    exact isEmpty_false_of_length_pos (by omega)
  have e1 : chunkLoop t cfgC3 (9 + 1) 0 [] =
      chunkLoop t cfgC3 9 80 ([] ++ [pySlice t 0 100]) :=
    chunkLoop_step_nm t cfgC3 9 0 [] 100 80 hm hw
      (by rw [hlen]; norm_num) (by norm_num [cfgC3]) (by norm_num [cfgC3])
      (by rw [hsl1]; exact isEmpty_false_of_length_pos (by simp [hlen]))
      (by rw [hlen]; norm_num)
  have e2 : chunkLoop t cfgC3 (8 + 1) 80 [pySlice t 0 100] =
      chunkLoop t cfgC3 8 160 ([pySlice t 0 100] ++ [pySlice t 80 180]) :=
    chunkLoop_step_nm t cfgC3 8 80 _ 180 160 hm hw
      (by rw [hlen]; norm_num) (by norm_num [cfgC3]) (by norm_num [cfgC3])
      (by rw [hsl2]; exact isEmpty_false_of_length_pos (by simp [hlen]))
      (by rw [hlen]; norm_num)
  have e3 : chunkLoop t cfgC3 (7 + 1) 160 [pySlice t 0 100, pySlice t 80 180] =
      chunkLoop t cfgC3 7 240
        ([pySlice t 0 100, pySlice t 80 180] ++ [pySlice t 160 260]) :=
    chunkLoop_step_nm t cfgC3 7 160 _ 260 240 hm hw
      (by rw [hlen]; norm_num) (by norm_num [cfgC3]) (by norm_num [cfgC3])
      (by rw [hsl3]; exact isEmpty_false_of_length_pos (by simp [hlen]))
      (by rw [hlen]; norm_num)
  have e4 : chunkLoop t cfgC3 (6 + 1) 240
      [pySlice t 0 100, pySlice t 80 180, pySlice t 160 260] =
      some ([pySlice t 0 100, pySlice t 80 180, pySlice t 160 260]
        ++ [pySlice t 240 340]) :=
    chunkLoop_last_nm t cfgC3 6 240 _ 340 320 hm hw
      (by rw [hlen]; norm_num) (by norm_num [cfgC3]) (by norm_num [cfgC3])
      (by rw [hsl4]; exact isEmpty_false_of_length_pos (by simp [hlen]))
      (by rw [hlen]; norm_num)
  simp only [List.nil_append, List.singleton_append] at e1 e2 e3 e4
  have hchain := e1.trans (e2.trans (e3.trans e4))
  rw [chunk_text, if_neg (by rw [hguard]; exact Bool.false_ne_true)]
  rw [show (10 : Nat) = 9 + 1 from rfl, hchain, hsl1, hsl2, hsl3, hsl4]
  rfl

/-- C3 (amended): on a marker-free, whitespace-free text of length 250
with `maxLen=100, overlap=20`, `chunk_text` produces exactly FOUR chunks
(not three): the slices `[0,100)`, `[80,180)`, `[160,250)` and
`[240,250)`.  Each has length at most 100; consecutive chunks among the
first three overlap by exactly 20 characters, and the fourth chunk is the
trailing 10 characters, wholly contained in the third chunk. -/
theorem chunk_text_c3_amended (t : List Char) (hlen : t.length = 250)
    (hm : ∀ bc ∈ boundaryMarkers, ∀ i, matchesAt t bc i = false)
    (hw : ∀ c ∈ t, pyWs c = false) :
    chunk_text cfgC3 t 10 =
      some [t.take 100, (t.take 180).drop 80,
            (t.take 250).drop 160, (t.take 250).drop 240] ∧
    (t.take 100).length = 100 ∧ ((t.take 180).drop 80).length = 100 ∧
    ((t.take 250).drop 160).length = 90 ∧ ((t.take 250).drop 240).length = 10 ∧
    (t.take 100).drop 80 = ((t.take 180).drop 80).take 20 ∧
    ((t.take 180).drop 80).drop 80 = ((t.take 250).drop 160).take 20 ∧
    (t.take 250).drop 240 = ((t.take 250).drop 160).drop 80 := by
  refine ⟨chunk250_general t hlen hm hw, by simp [hlen], by simp [hlen],
    by simp [hlen], by simp [hlen], ?_, ?_, ?_⟩
  · simp [List.drop_take, List.take_take]
  · simp [List.drop_take, List.take_take, List.drop_drop]
  · simp [List.drop_take, List.drop_drop]

lemma matchesAt_head_not_mem {t : List Char} {c : Char} {rest : List Char}
    (h : c ∉ t) (i : Nat) : matchesAt t (c :: rest) i = false := by
  apply decide_eq_false
  intro heq
  have hc : c ∈ (t.drop i).take (c :: rest).length := by
    rw [heq]; exact List.mem_cons_self c rest
  exact h (List.mem_of_mem_drop (List.mem_of_mem_take hc))

lemma no_marker_replicate (n : Nat) :
    ∀ bc ∈ boundaryMarkers, ∀ i,
      matchesAt (List.replicate n 'a') bc i = false := by
  intro bc hbc i
  have hmem : ∀ (c : Char), c ≠ 'a' → c ∉ List.replicate n 'a' :=
    fun c hc hm => hc (List.eq_of_mem_replicate hm)
  simp only [boundaryMarkers, List.mem_cons, List.not_mem_nil, or_false] at hbc
  rcases hbc with rfl | rfl | rfl | rfl | rfl | rfl | rfl
  · exact matchesAt_head_not_mem (hmem '.' (by decide)) i
  · exact matchesAt_head_not_mem (hmem '.' (by decide)) i
  · exact matchesAt_head_not_mem (hmem '!' (by decide)) i
  · exact matchesAt_head_not_mem (hmem '!' (by decide)) i
  · exact matchesAt_head_not_mem (hmem '?' (by decide)) i
  · exact matchesAt_head_not_mem (hmem '?' (by decide)) i
  · exact matchesAt_head_not_mem (hmem '\n' (by decide)) i

lemma no_ws_replicate (n : Nat) :
    ∀ c ∈ List.replicate n 'a', pyWs c = false := by
  intro c hc
  rw [List.eq_of_mem_replicate hc]
  rfl

/-- C3 (counterexample): 250 letters `'a'` contain no boundary marker, yet
`chunk_text` with `maxLen=100, overlap=20` returns FOUR chunks, not the
three the claim asserts. -/
theorem chunk_text_c3_counterexample :
    (chunk_text cfgC3 (List.replicate 250 'a') 10).map List.length = some 4 := by
  rw [chunk250_general (List.replicate 250 'a') (by rw [List.length_replicate])
    (no_marker_replicate 250) (no_ws_replicate 250)]
  rfl

/-- C3 (witness): the amended theorem applied to the all-`'a'` text of
length 250. -/
theorem chunk_text_c3_witness :
    chunk_text cfgC3 (List.replicate 250 'a') 10 =
      some [List.replicate 100 'a', List.replicate 100 'a',
            List.replicate 90 'a', List.replicate 10 'a'] := by
  have h := (chunk_text_c3_amended (List.replicate 250 'a')
    (by rw [List.length_replicate])
    (no_marker_replicate 250) (no_ws_replicate 250)).1
  rw [h]
  have m1 : min 100 250 = 100 := by omega
  have m2 : min 180 250 = 180 := by omega
  have m3 : min 250 250 = 250 := by omega
  simp only [List.take_replicate, List.drop_replicate, m1, m2, m3]

lemma filter_take_filter_length {α : Type} (f : α → Bool) (l : List α) (n : Nat) :
    (((l.filter f).take n).filter f).length = min n (l.filter f).length := by
  rw [List.filter_eq_self.mpr
    (fun a ha => List.of_mem_filter (List.mem_of_mem_take ha)), List.length_take]

lemma search_score_ge (backend : Nat → ℚ → List QdrantPoint) (k : Nat)
    (m : ℚ) (r : SearchResult) (hr : r ∈ search backend k m) : m ≤ r.score := by
  simp only [search] at hr
  obtain ⟨p, hp, rfl⟩ := List.mem_map.mp hr
  have hsc := List.of_mem_filter hp
  simp only [formatPoint]
  by_cases hm : m = 0
  · subst hm
    simp only [if_pos rfl] at hsc
    have h1 : RAG_MIN_SCORE ≤ p.score := of_decide_eq_true hsc
    have h5 : (0 : ℚ) ≤ RAG_MIN_SCORE := by norm_num [RAG_MIN_SCORE]
    exact le_trans h5 h1
  · simp only [if_neg hm] at hsc
    exact of_decide_eq_true hsc

lemma search_qdrant_length (index : List QdrantPoint) (k : Nat) (m : ℚ)
    (hm : m ≠ 0) :
    (search (qdrantBackend index) k m).length =
      min (if k = 0 then RAG_TOP_K else k)
        ((index.filter (fun p => decide (m ≤ p.score))).length) := by
  simp only [search, qdrantBackend, if_neg hm]
  rw [List.length_map, filter_take_filter_length]

/-- C4 (amended): the first half of the threshold law holds — `search`
never returns a result whose score is strictly below the requested
`minScore` (for any backend whatsoever, thanks to the client-side
re-filter).  The monotonicity half holds only away from the falsy value
`minScore = 0.0`: for `0 < m1 ≤ m2`, raising the threshold from `m1` to
`m2` never increases the result count against the spec-modelled backend. -/
theorem search_c4_amended :
    (∀ (backend : Nat → ℚ → List QdrantPoint) (k : Nat) (m : ℚ)
        (r : SearchResult), r ∈ search backend k m → m ≤ r.score) ∧
    (∀ (index : List QdrantPoint) (k : Nat) (m1 m2 : ℚ), 0 < m1 → m1 ≤ m2 →
        (search (qdrantBackend index) k m2).length ≤
          (search (qdrantBackend index) k m1).length) := by
  constructor
  · exact search_score_ge
  · intro index k m1 m2 h1 h12
    have h2 : (0 : ℚ) < m2 := lt_of_lt_of_le h1 h12
    rw [search_qdrant_length index k m1 (ne_of_gt h1),
        search_qdrant_length index k m2 (ne_of_gt h2)]
    apply min_le_min (le_refl _)
    have heq : index.filter (fun p => decide (m2 ≤ p.score)) =
        (index.filter (fun p => decide (m1 ≤ p.score))).filter
          (fun p => decide (m2 ≤ p.score)) := by
      rw [List.filter_filter]
      apply List.filter_congr
      intro p hp
      by_cases h : m2 ≤ p.score
      · simp [h, le_trans h12 h]
      · simp [h]
    rw [heq]
    exact List.length_filter_le _ _

/-- C4 (counterexample): raising `minScore` from `0.0` to `0.1` INCREASES
the result count (0 to 1): the falsy value `0.0` is silently replaced by
the default `0.2`, which filters out the `0.15`-scored point, while the
honest request `0.1` keeps it. -/
theorem search_c4_counterexample :
    (0 : ℚ) < 1/10 ∧
    (search (qdrantBackend [ptC4]) 4 0).length = 0 ∧
    (search (qdrantBackend [ptC4]) 4 (1/10)).length = 1 := by
  refine ⟨by norm_num, ?_, ?_⟩ <;>
    · simp only [search, qdrantBackend]
      norm_num [ptC4, RAG_MIN_SCORE, List.filter_cons]

/-- C4 (witness): the amended theorem applied at concrete inputs. -/
theorem search_c4_witness :
    ((3 : ℚ)/10 ≤ (formatPoint ptW).score) ∧
    (search (qdrantBackend [ptC4]) 3 (1/2)).length ≤
      (search (qdrantBackend [ptC4]) 3 (3/10)).length := by
  have hse : search backendW 4 (3/10) = [formatPoint ptW] := by
    simp only [search, backendW]
    norm_num [ptW, List.filter_cons]
  constructor
  · exact search_c4_amended.1 backendW 4 (3/10) (formatPoint ptW)
      (hse ▸ List.mem_singleton_self _)
  · exact search_c4_amended.2 [ptC4] 3 (3/10) (1/2) (by norm_num) (by norm_num)

lemma delete_document_no_match (idx : List IndexEntry) (d : String)
    (h : idx.filter (fun e => e.doc_id == some d) = []) :
    delete_document idx d = idx := by
  simp only [delete_document, scrollPage, h, List.take_nil]
  rfl

/-- C5 (amended): `delete_document` deletes exactly the matching entries
that fit in its single 10000-point scroll page.  When a document has at
most 10000 matching entries (and point ids are unique, as Qdrant
guarantees), all of its entries are deleted and no others; deleting a
doc_id with zero matching entries is a successful no-op that leaves the
index unchanged. -/
theorem delete_document_c5_amended :
    (∀ (idx : List IndexEntry) (d : String),
        (idx.filter (fun e => e.doc_id == some d)).length ≤ 10000 →
        (idx.map (fun e => e.id)).Nodup →
        delete_document idx d =
          idx.filter (fun e => !(e.doc_id == some d))) ∧
    (∀ (idx : List IndexEntry) (d : String),
        idx.filter (fun e => e.doc_id == some d) = [] →
        delete_document idx d = idx) := by
  constructor
  · intro idx d hcount hnodup
    have hpage : scrollPage idx d 10000 =
        idx.filter (fun e => e.doc_id == some d) := by
      simp only [scrollPage]
      exact List.take_of_length_le hcount
    by_cases hempty : idx.filter (fun e => e.doc_id == some d) = []
    · rw [delete_document_no_match idx d hempty]
      symm
      apply List.filter_eq_self.mpr
      intro e he
      cases hb : (e.doc_id == some d) with
      | false => simp [hb]
      | true =>
        exfalso
        have hmem : e ∈ idx.filter (fun e => e.doc_id == some d) :=
          List.mem_filter.mpr ⟨he, hb⟩
        rw [hempty] at hmem
        exact absurd hmem (List.not_mem_nil e)
    · have hne : (scrollPage idx d 10000).isEmpty = false := by
        rw [hpage]
        cases hc : idx.filter (fun e => e.doc_id == some d) with
        | nil => exact absurd hc hempty
        | cons a l => rfl
      simp only [delete_document, hne]
      rw [if_neg Bool.false_ne_true, hpage]
      apply List.filter_congr
      intro e he
      have hiff : ((idx.filter (fun e => e.doc_id == some d)).map
          (fun p => p.id)).contains e.id = (e.doc_id == some d) := by
        cases hb : (e.doc_id == some d) with
        | true =>
          exact List.elem_iff.mpr
            (List.mem_map.mpr ⟨e, List.mem_filter.mpr ⟨he, hb⟩, rfl⟩)
        | false =>
          cases hcc : ((idx.filter (fun e => e.doc_id == some d)).map
              (fun p => p.id)).contains e.id with
          | false => rfl
          | true =>
            exfalso
            obtain ⟨e2, he2, hid⟩ := List.mem_map.mp (List.elem_iff.mp hcc)
            obtain ⟨he2idx, hb2⟩ := List.mem_filter.mp he2
            have he2e : e2 = e := List.inj_on_of_nodup_map hnodup he2idx he hid
            rw [he2e] at hb2
            rw [hb] at hb2
            exact Bool.false_ne_true hb2
      rw [hiff]
  · intro idx d h
    exact delete_document_no_match idx d h

lemma contains_eq_false_of_not_mem {α : Type} [BEq α] [LawfulBEq α]
    {l : List α} {a : α} (h : a ∉ l) : l.contains a = false := by
  cases hc : l.contains a with
  | false => rfl
  | true => exact absurd (List.elem_iff.mp hc) h

lemma range_succ_filter_eq_singleton (n : Nat) (p : Nat → Bool)
    (h1 : ∀ i < n, p i = false) (h2 : p n = true) :
    (List.range (n + 1)).filter p = [n] := by
  rw [List.range_succ, List.filter_append,
    List.filter_eq_nil_iff.mpr (fun i hi => by simp [h1 i (List.mem_range.mp hi)])]
  simp [h2]

/-- C5 (counterexample): on a document with 10001 chunks, the single
bounded scroll page (`limit=10000`) finds only the first 10000 entries,
so `delete_document` leaves the entry with id 10000 — still carrying
doc_id `"d"` — in the index, refuting "finds and deletes all entries
whose metadata doc_id equals the given value … paginated scan, not a
single bounded page". -/
theorem delete_document_c5_counterexample :
    delete_document idxC5 "d" = [⟨10000, some "d"⟩] := by
  have hmatch : idxC5.filter (fun e => e.doc_id == some "d") = idxC5 := by
    apply List.filter_eq_self.mpr
    intro e he
    obtain ⟨i, hi, rfl⟩ := List.mem_map.mp he
    rfl
  have hrange : (List.range 10001).take 10000 = List.range 10000 := by
    rw [List.take_range, Nat.min_eq_left (by norm_num)]
  have hpage : scrollPage idxC5 "d" 10000 = (List.range 10000).map entC5 := by
    show (idxC5.filter (fun e => e.doc_id == some "d")).take 10000 = _
    rw [hmatch]
    show ((List.range 10001).map entC5).take 10000 = _
    rw [← List.map_take, hrange]
  have hids : (scrollPage idxC5 "d" 10000).map (fun p => p.id) =
      List.range 10000 := by
    rw [hpage, List.map_map]
    have hcomp : ((fun p : IndexEntry => p.id) ∘ entC5) = id := rfl
    rw [hcomp, List.map_id]
  have hne : (scrollPage idxC5 "d" 10000).isEmpty = false := by
    rw [hpage]
    exact isEmpty_false_of_length_pos
      (by rw [List.length_map, List.length_range]; norm_num)
  simp only [delete_document, hne]
  rw [if_neg Bool.false_ne_true, hids]
  show ((List.range 10001).map entC5).filter
    (fun e => !((List.range 10000).contains e.id)) = [entC5 10000]
  rw [List.filter_map]
  have hfil : (List.range (10000 + 1)).filter
      ((fun e => !((List.range 10000).contains e.id)) ∘ entC5) = [10000] :=
    range_succ_filter_eq_singleton 10000 _
      (fun i hi => by
        simp [Function.comp, entC5,
          List.elem_iff.mpr (List.mem_range.mpr hi)]
        try omega)
      (by
        simp [Function.comp, entC5,
          contains_eq_false_of_not_mem
            (by simp : (10000 : Nat) ∉ List.range 10000)])
  rw [show (10001 : Nat) = 10000 + 1 from rfl, hfil]
  rfl

/-- C5 (witness): the amended theorem applied to a small concrete index
(a matching delete and a zero-match no-op delete). -/
theorem delete_document_c5_witness :
    delete_document idxW "d" = [⟨2, some "x"⟩, ⟨3, none⟩] ∧
    delete_document idxW "zzz" = idxW := by
  constructor
  · have h := delete_document_c5_amended.1 idxW "d" (by decide) (by decide)
    rw [h]
    decide
  · exact delete_document_c5_amended.2 idxW "zzz" (by decide)

/-- C10: `top_k = top_k or settings.RAG_TOP_K` and
`min_score = min_score or settings.RAG_MIN_SCORE` silently replace the
falsy arguments `0` / `0.0` by the configured defaults (4 and 0.2): a
call with `min_score = 0.0` or `top_k = 0` behaves exactly like one with
the defaults, for every backend, so a caller cannot request a threshold
of exactly 0.0 or a result limit of 0. -/
theorem search_c10_falsy_defaults (backend : Nat → ℚ → List QdrantPoint) :
    (search backend 0 0 = search backend RAG_TOP_K RAG_MIN_SCORE) ∧
    (∀ m : ℚ, m ≠ 0 → search backend 0 m = search backend RAG_TOP_K m) ∧
    (∀ k : Nat, k ≠ 0 → search backend k 0 = search backend k RAG_MIN_SCORE) := by
  refine ⟨?_, ?_, ?_⟩
  · simp only [search]
    norm_num [RAG_TOP_K, RAG_MIN_SCORE]
  · intro m hm
    simp only [search, if_neg hm]
    norm_num [RAG_TOP_K]
  · intro k hk
    simp only [search, if_neg hk]
    norm_num [RAG_MIN_SCORE]

/-- C10 (witness): the falsy-default law at the concrete backend
`backendW`, a nonzero threshold `1/2` and a nonzero limit 7. -/
theorem search_c10_witness :
    (search backendW 0 0 = search backendW RAG_TOP_K RAG_MIN_SCORE) ∧
    (search backendW 0 (1/2) = search backendW RAG_TOP_K (1/2)) ∧
    (search backendW 7 0 = search backendW 7 RAG_MIN_SCORE) :=
  ⟨(search_c10_falsy_defaults backendW).1,
   (search_c10_falsy_defaults backendW).2.1 (1/2) (by norm_num),
   (search_c10_falsy_defaults backendW).2.2 7 (by norm_num)⟩

/-- C6: on an empty retrieval result sequence `rag_query` returns the
fixed not-found answer, empty sources and confidence exactly 0, as a
normal `.ok` value (no exception), and it does so identically for every
generation provider — the provider is never consulted. -/
theorem rag_query_c6_no_results (query : String)
    (gen gen2 : String → String → GenResult) :
    rag_query query [] gen = .ok ⟨notFoundAnswer, [], 0⟩ ∧
    rag_query query [] gen = rag_query query [] gen2 := by
  constructor <;> rfl

/-- C6 (witness): the no-results outcome at a concrete query, for two
different concrete generation providers. -/
theorem rag_query_c6_witness :
    rag_query "q" [] genValW = .ok ⟨notFoundAnswer, [], 0⟩ ∧
    rag_query "q" [] genValW = rag_query "q" [] genOkW :=
  rag_query_c6_no_results "q" genValW genOkW

/-- C7: with non-empty retrieval results, a `ValueError` from the
generation provider (the mapping of Groq `PermissionDeniedError` /
`AuthenticationError` in `chat_completion_async`) yields the fixed
configuration-issue answer with the already-computed sources and
confidence 0; a `RuntimeError` (the mapping of Groq `APIError`) yields
the fixed service-unavailable answer with the same sources and
confidence 0 — both as normal `.ok` returns, no exception propagated. -/
theorem rag_query_c7_gen_failures (query : String)
    (results : List SearchResult) (gen : String → String → GenResult)
    (hne : results ≠ []) :
    (gen (promptTemplate (joinSep "\n\n" (results.map (fun r => r.text))) query)
        systemPrompt = .valueError →
      rag_query query results gen =
        .ok ⟨configIssueAnswer, collectSources results [], 0⟩) ∧
    (gen (promptTemplate (joinSep "\n\n" (results.map (fun r => r.text))) query)
        systemPrompt = .runtimeError →
      rag_query query results gen =
        .ok ⟨serviceIssueAnswer, collectSources results [], 0⟩) := by
  have hemp : results.isEmpty = false := by
    rw [List.isEmpty_eq_false]
    exact hne
  constructor <;> intro hg <;>
    · simp only [rag_query, hemp]
      rw [if_neg Bool.false_ne_true, hg]

/-- C7 (witness): Scenario D concretely — two retrieved sources, a
generation authentication failure, and a generation API failure. -/
theorem rag_query_c7_witness :
    rag_query "q" [resW1, resW2] genValW =
      .ok ⟨configIssueAnswer, ["d1", "d2"], 0⟩ ∧
    rag_query "q" [resW1, resW2] genRunW =
      .ok ⟨serviceIssueAnswer, ["d1", "d2"], 0⟩ := by
  constructor
  · have h := (rag_query_c7_gen_failures "q" [resW1, resW2] genValW
      (by simp)).1 rfl
    rw [h]
    rfl
  · have h := (rag_query_c7_gen_failures "q" [resW1, resW2] genRunW
      (by simp)).2 rfl
    rw [h]
    rfl

lemma rhe_nonneg {y : ℚ} (h : 0 ≤ y) : 0 ≤ rhe y := by
  unfold rhe
  have h0 : (0 : ℤ) ≤ ⌊y⌋ := Int.floor_nonneg.mpr h
  split
  · split
    · exact h0
    · omega
  · rw [round_eq]
    exact Int.floor_nonneg.mpr (by linarith)

lemma rhe_le_95 {y : ℚ} (h : y ≤ 95) : rhe y ≤ 95 := by
  unfold rhe
  split
  · rename_i hfrac
    have hfl : (⌊y⌋ : ℚ) = y - 1/2 := by linarith
    have hcast : (⌊y⌋ : ℚ) < 95 := by linarith
    have hlt : ⌊y⌋ < 95 := by exact_mod_cast hcast
    split
    · omega
    · omega
  · rw [round_eq]
    have h1 : y + 1/2 ≤ (191/2 : ℚ) := by linarith
    have h2 : ⌊y + 1/2⌋ ≤ ⌊(191/2 : ℚ)⌋ := Int.floor_le_floor h1
    have h3 : ⌊(191/2 : ℚ)⌋ = 95 := by
      rw [Int.floor_eq_iff]
      norm_num
    omega

lemma round2_bounds {q : ℚ} (h0 : 0 ≤ q) (h95 : q ≤ 19/20) :
    0 ≤ round2 q ∧ round2 q ≤ 19/20 := by
  have hy0 : 0 ≤ q * 100 := by positivity
  have hy95 : q * 100 ≤ 95 := by linarith
  have hl := rhe_nonneg hy0
  have hu := rhe_le_95 hy95
  constructor
  · exact div_nonneg (by exact_mod_cast hl) (by norm_num)
  · rw [round2, div_le_iff₀ (by norm_num : (0 : ℚ) < 100)]
    have hc : (rhe (q * 100) : ℚ) ≤ 95 := by exact_mod_cast hu
    linarith

lemma rag_query_confidence_general (query : String)
    (results : List SearchResult) (gen : String → String → GenResult)
    (out : QueryOutcome)
    (hscores : ∀ r ∈ results, (0 : ℚ) ≤ r.score)
    (hout : rag_query query results gen = .ok out) :
    (0 ≤ out.confidence ∧ out.confidence ≤ 19/20) ∧
    (∀ answer : String,
      gen (promptTemplate (joinSep "\n\n" (results.map (fun r => r.text)))
          query) systemPrompt = .ok answer →
      out.confidence = round2 (min (avgScore results) (19/20))) := by
  have havg : 0 ≤ avgScore results := by
    apply div_nonneg _ (Nat.cast_nonneg _)
    apply List.sum_nonneg
    intro x hx
    obtain ⟨r, hr, rfl⟩ := List.mem_map.mp hx
    exact hscores r hr
  have hmin0 : 0 ≤ min (avgScore results) (19/20 : ℚ) :=
    le_min havg (by norm_num)
  have hmin95 : min (avgScore results) (19/20 : ℚ) ≤ 19/20 := min_le_right _ _
  simp only [rag_query] at hout
  by_cases hemp : results.isEmpty = true
  · rw [if_pos hemp] at hout
    have hres : results = [] := List.isEmpty_iff.mp hemp
    obtain rfl := Except.ok.inj hout
    refine ⟨⟨le_refl _, by norm_num⟩, ?_⟩
    intro answer hg
    subst hres
    show (0 : ℚ) = round2 (min (avgScore []) (19/20))
    have hz : avgScore [] = 0 := by simp [avgScore]
    rw [hz, min_eq_left (by norm_num), round2]
    norm_num [rhe, round_zero]
  · rw [if_neg hemp] at hout
    cases hg2 : gen (promptTemplate
        (joinSep "\n\n" (results.map (fun r => r.text))) query) systemPrompt with
    | ok ans =>
      rw [hg2] at hout
      obtain rfl := Except.ok.inj hout
      exact ⟨round2_bounds hmin0 hmin95, fun answer _ => rfl⟩
    | valueError =>
      rw [hg2] at hout
      obtain rfl := Except.ok.inj hout
      refine ⟨⟨le_refl _, by norm_num⟩, ?_⟩
      intro answer hg
      exact GenResult.noConfusion hg
    | runtimeError =>
      rw [hg2] at hout
      obtain rfl := Except.ok.inj hout
      refine ⟨⟨le_refl _, by norm_num⟩, ?_⟩
      intro answer hg
      exact GenResult.noConfusion hg
    | otherError =>
      rw [hg2] at hout
      exact Except.noConfusion hout

/-- C8: for every query outcome `.ok out` of the full pipeline, the
confidence lies in `[0, 0.95]`; and on the successful generation path it
equals `min(mean(scores), 0.95)` rounded to two decimals.  The lower
bound holds because the pipeline retrieves with
`minScore = RAG_MIN_SCORE = 0.2` and `search` never returns a
lower-scored result. -/
theorem rag_query_c8_confidence (backend : Nat → ℚ → List QdrantPoint)
    (query : String) (gen : String → String → GenResult) (out : QueryOutcome)
    (hout : rag_query_pipeline backend query gen = .ok out) :
    (0 ≤ out.confidence ∧ out.confidence ≤ 19/20) ∧
    (∀ answer : String,
      gen (promptTemplate (joinSep "\n\n"
          ((search backend RAG_TOP_K RAG_MIN_SCORE).map (fun r => r.text)))
          query) systemPrompt = .ok answer →
      out.confidence =
        round2 (min (avgScore (search backend RAG_TOP_K RAG_MIN_SCORE))
          (19/20))) := by
  apply rag_query_confidence_general query
    (search backend RAG_TOP_K RAG_MIN_SCORE) gen out ?_ hout
  intro r hr
  have h := search_score_ge backend RAG_TOP_K RAG_MIN_SCORE r hr
  have h5 : (0 : ℚ) ≤ RAG_MIN_SCORE := by norm_num [RAG_MIN_SCORE]
  linarith

/-- C8 (witness): the confidence bound applied to the concrete pipeline
run over `backendW` with the always-succeeding provider. -/
theorem rag_query_c8_witness :
    0 ≤ outW8.confidence ∧ outW8.confidence ≤ 19/20 := by
  have hf50 : ⌊(50 : ℚ)⌋ = 50 := by
    rw [Int.floor_eq_iff]
    norm_num
  have hround : round2 (1/2 : ℚ) = 1/2 := by
    rw [round2]
    have h100 : (1/2 : ℚ) * 100 = 50 := by norm_num
    rw [h100, rhe]
    rw [if_neg (by rw [hf50]; norm_num)]
    rw [round_eq]
    have hf : ⌊(50 : ℚ) + 1/2⌋ = 50 := by
      rw [Int.floor_eq_iff]
      norm_num
    rw [hf]
    norm_num
  have hse : search backendW RAG_TOP_K RAG_MIN_SCORE = [formatPoint ptW] := by
    simp only [search, backendW]
    norm_num [ptW, RAG_MIN_SCORE, List.filter_cons]
  have havg : avgScore [formatPoint ptW] = 1/2 := by
    norm_num [avgScore, formatPoint, ptW]
  have hout : rag_query_pipeline backendW "q" genOkW = .ok outW8 := by
    simp only [rag_query_pipeline]
    rw [hse]
    simp only [rag_query, List.isEmpty_cons, genOkW]
    rw [if_neg Bool.false_ne_true]
    rw [havg, min_eq_left (by norm_num), hround]
    have h1 : pyStripStr "  the answer  " = "the answer" := by decide
    have h2 : collectSources [formatPoint ptW] [] = ["dw"] := by decide
    rw [h1, h2]
    rfl
  exact (rag_query_c8_confidence backendW "q" genOkW outW8 hout).1

lemma fsDedup_sublist (l : List String) : (fsDedup l).Sublist l := by
  induction l using fsDedup.induct with
  | case1 => rw [fsDedup]
  | case2 x xs ih =>
    rw [fsDedup]
    exact List.Sublist.cons₂ x (ih.trans (List.filter_sublist xs))

lemma fsDedup_nodup (l : List String) : (fsDedup l).Nodup := by
  induction l using fsDedup.induct with
  | case1 => rw [fsDedup]; exact List.nodup_nil
  | case2 x xs ih =>
    rw [fsDedup]
    refine List.nodup_cons.mpr ⟨?_, ih⟩
    intro hx
    have hmem := (fsDedup_sublist _).subset hx
    have := List.of_mem_filter hmem
    simp at this

lemma indexOf_filter_lt (p : String → Bool) :
    ∀ (xs : List String) (a b : String),
      a ∈ xs.filter p → b ∈ xs.filter p →
      (xs.filter p).indexOf a < (xs.filter p).indexOf b →
      xs.indexOf a < xs.indexOf b := by
  intro xs
  induction xs with
  | nil => intro a b ha; simp at ha
  | cons y ys ih =>
    intro a b ha hb h
    by_cases hpy : p y
    · rw [List.filter_cons_of_pos hpy] at ha hb h
      by_cases hay : a = y
      · subst hay
        have hba : b ≠ a := by
          intro e
          subst e
          rw [List.indexOf_cons_self] at h
          exact Nat.lt_irrefl _ h
        rw [List.indexOf_cons_self, List.indexOf_cons_ne ys (Ne.symm hba)]
        exact Nat.succ_pos _
      · by_cases hby : b = y
        · subst hby
          rw [List.indexOf_cons_self, List.indexOf_cons_ne _ (Ne.symm hay)] at h
          exact absurd h (Nat.not_lt_zero _)
        · rw [List.indexOf_cons_ne _ (Ne.symm hay),
              List.indexOf_cons_ne _ (Ne.symm hby)] at h
          have ha2 : a ∈ ys.filter p := by
            rcases List.mem_cons.mp ha with h1 | h1
            · exact absurd h1 hay
            · exact h1
          have hb2 : b ∈ ys.filter p := by
            rcases List.mem_cons.mp hb with h1 | h1
            · exact absurd h1 hby
            · exact h1
          have hlt := ih a b ha2 hb2 (Nat.lt_of_succ_lt_succ h)
          rw [List.indexOf_cons_ne _ (Ne.symm hay),
              List.indexOf_cons_ne _ (Ne.symm hby)]
          exact Nat.succ_lt_succ hlt
    · rw [List.filter_cons_of_neg hpy] at ha hb h
      have hay : a ≠ y := by
        intro e
        subst e
        exact hpy (List.of_mem_filter ha)
      have hby : b ≠ y := by
        intro e
        subst e
        exact hpy (List.of_mem_filter hb)
      rw [List.indexOf_cons_ne _ (Ne.symm hay),
          List.indexOf_cons_ne _ (Ne.symm hby)]
      exact Nat.succ_lt_succ (ih a b ha hb h)

lemma fsDedup_pairwise (l : List String) :
    (fsDedup l).Pairwise (fun a b => l.indexOf a < l.indexOf b) := by
  induction l using fsDedup.induct with
  | case1 => rw [fsDedup]; exact List.Pairwise.nil
  | case2 x xs ih =>
    rw [fsDedup]
    refine List.pairwise_cons.mpr ⟨?_, ?_⟩
    · intro b hb
      have hbf := (fsDedup_sublist _).subset hb
      have hbx : b ≠ x := by
        have := List.of_mem_filter hbf
        simpa using this
      rw [List.indexOf_cons_self, List.indexOf_cons_ne xs (Ne.symm hbx)]
      exact Nat.succ_pos _
    · refine List.Pairwise.imp_of_mem ?_ ih
      intro a b ha hb hlt
      have haf := (fsDedup_sublist _).subset ha
      have hbf := (fsDedup_sublist _).subset hb
      have hax : a ≠ x := by
        have := List.of_mem_filter haf
        simpa using this
      have hbx : b ≠ x := by
        have := List.of_mem_filter hbf
        simpa using this
      rw [List.indexOf_cons_ne xs (Ne.symm hax),
          List.indexOf_cons_ne xs (Ne.symm hbx)]
      exact Nat.succ_lt_succ
        (indexOf_filter_lt _ xs a b haf hbf hlt)

lemma collectSources_eq :
    ∀ (rs : List SearchResult) (acc : List String),
      collectSources rs acc =
        acc ++ fsDedup ((rs.map sourceKey).filter (fun k => decide (k ∉ acc))) := by
  intro rs
  induction rs with
  | nil =>
    intro acc
    rw [collectSources, List.map_nil, List.filter_nil, fsDedup, List.append_nil]
  | cons r rs ih =>
    intro acc
    simp only [collectSources, List.map_cons, List.filter_cons]
    by_cases hmem : sourceKey r ∈ acc
    · rw [if_pos hmem, show decide (sourceKey r ∉ acc) = false from by simp [hmem]]
      simp only [Bool.false_eq_true, if_false]
      exact ih acc
    · rw [if_neg hmem, show decide (sourceKey r ∉ acc) = true from by simp [hmem]]
      simp only [if_true]
      rw [ih (acc ++ [sourceKey r]), fsDedup, List.filter_filter]
      have hpt : ∀ y : String,
          (decide (y ∉ acc ++ [sourceKey r])) =
            ((!(y == sourceKey r)) && decide (y ∉ acc)) := by
        intro y
        by_cases h1 : y ∈ acc <;> by_cases h2 : y = sourceKey r <;>
          simp [h1, h2, List.mem_append]
      rw [List.filter_congr (fun y _ => hpt y)]
      simp [List.append_assoc]

lemma collectSources_nil (rs : List SearchResult) :
    collectSources rs [] = fsDedup (rs.map sourceKey) := by
  rw [collectSources_eq]
  simp

/-- C9: the sources list of a query contains no duplicate, every element
is the doc_id (or fallback entry id) of some consumed search result, and
the elements appear in strictly increasing order of first occurrence over
the ranked results — first-seen order. -/
theorem rag_query_c9_sources (results : List SearchResult) :
    (collectSources results []).Nodup ∧
    (∀ x ∈ collectSources results [], ∃ r ∈ results, x = sourceKey r) ∧
    (collectSources results []).Pairwise
      (fun a b => (results.map sourceKey).indexOf a <
        (results.map sourceKey).indexOf b) := by
  rw [collectSources_nil]
  refine ⟨fsDedup_nodup _, ?_, fsDedup_pairwise _⟩
  intro x hx
  obtain ⟨r, hr, hk⟩ := List.mem_map.mp ((fsDedup_sublist _).subset hx)
  exact ⟨r, hr, hk.symm⟩

/-- C9 (witness): the sources theorem at a concrete ranked result list;
the computed sources are the first-seen de-duplicated keys. -/
theorem rag_query_c9_witness :
    (collectSources resultsC9 []).Nodup ∧
    collectSources resultsC9 [] = ["d1", "d2", "id4"] := by
  constructor
  · exact (rag_query_c9_sources resultsC9).1
  · decide
